import Mathlib

/-!
Verification model for the snaptool repository: the generate / compile /
cache / execute pipeline, its content-addressed caches, the prompt history
log, and the container compilation service.

String primitives mirror the JavaScript operations used by the source
(`trim`, `toLowerCase`, `startsWith`, `includes`, character counting).
JavaScript strings are modelled as Lean strings; the ASCII-only inputs the
claims exercise behave identically under both.  `crypto.subtle.digest` with
algorithm SHA-256 is modelled by a full executable SHA-256 (FIPS 180-4)
over the UTF-8 bytes of the input, exactly as `TextEncoder.encode` feeds it.
-/

set_option autoImplicit false

/-- Characters removed by JavaScript `String.prototype.trim` and matched by
the regular-expression class `\s` (ECMAScript WhiteSpace and LineTerminator
code points). -/
def isJsWhitespace (c : Char) : Bool :=
  c = Char.ofNat 9 || c = Char.ofNat 10 || c = Char.ofNat 11 || c = Char.ofNat 12 ||
  c = Char.ofNat 13 || c = Char.ofNat 32 || c = Char.ofNat 160 || c = Char.ofNat 5760 ||
  (8192 ≤ c.toNat && c.toNat ≤ 8202) ||
  c = Char.ofNat 8232 || c = Char.ofNat 8233 || c = Char.ofNat 8239 || c = Char.ofNat 8287 ||
  c = Char.ofNat 12288 || c = Char.ofNat 65279

/-- Strip leading, then trailing, JavaScript whitespace from a character list. -/
def trimList (l : List Char) : List Char :=
  ((l.dropWhile isJsWhitespace).reverse.dropWhile isJsWhitespace).reverse

/-- JavaScript `s.trim()`. -/
def jsTrim (s : String) : String := String.mk (trimList s.data)

/-- JavaScript `s.toLowerCase()` (ASCII case folding, which agrees with the
JavaScript behaviour on the ASCII prompts the system handles). -/
def jsToLower (s : String) : String := String.mk (s.data.map Char.toLower)

/-- JavaScript `s.startsWith(pre)`. -/
def jsStartsWith (s pre : String) : Bool := pre.data.isPrefixOf s.data

/-- JavaScript `s.includes(sub)`. -/
def containsSub (s sub : String) : Bool := decide (sub.data <:+: s.data)

/-- JavaScript `s.substring(0, n)` (also `slice(0, n)` on strings). -/
def takeJs (s : String) (n : Nat) : String := String.mk (s.data.take n)

/-- Number of occurrences of a single character, as computed by
`(s.match(/c/g) || []).length`. -/
def countChar (s : String) (c : Char) : Nat := s.data.count c

/-- The three JavaScript quote characters accepted by the import-scanning
regular expression: apostrophe, double quote, backtick. -/
def isQuoteChar (c : Char) : Bool :=
  c = Char.ofNat 39 || c = Char.ofNat 34 || c = Char.ofNat 96

deriving instance DecidableEq for Except

/-- Association-list lookup, first binding wins; models keyed object stores. -/
def alookup {α : Type} : List (String × α) → String → Option α
  | [], _ => none
  | (k, v) :: t, k' => if k = k' then some v else alookup t k'

/-- Remove every binding for a key; models a store `delete`. -/
def aerase {α : Type} (k : String) (l : List (String × α)) : List (String × α) :=
  l.filter (fun kv => kv.1 ≠ k)

/-- Overwriting insert; models a store `put`/`set` (content-addressed, a write
for key `k` fully replaces any prior value for `k`). -/
def ainsert {α : Type} (k : String) (v : α) (l : List (String × α)) : List (String × α) :=
  (k, v) :: aerase k l

namespace Sha

/-- Truncation to a 32-bit word. -/
def w32 (n : Nat) : Nat := n % 4294967296

/-- 32-bit modular addition. -/
def add32 (a b : Nat) : Nat := (a + b) % 4294967296

/-- Right rotation of a 32-bit word. -/
def rotr (r n : Nat) : Nat := ((n >>> r) ||| (n <<< (32 - r))) % 4294967296

/-- Bitwise complement of a 32-bit word. -/
def not32 (n : Nat) : Nat := Nat.xor n 4294967295

def bigSigma0 (x : Nat) : Nat := Nat.xor (Nat.xor (rotr 2 x) (rotr 13 x)) (rotr 22 x)

def bigSigma1 (x : Nat) : Nat := Nat.xor (Nat.xor (rotr 6 x) (rotr 11 x)) (rotr 25 x)

def smallSigma0 (x : Nat) : Nat := Nat.xor (Nat.xor (rotr 7 x) (rotr 18 x)) (x >>> 3)

def smallSigma1 (x : Nat) : Nat := Nat.xor (Nat.xor (rotr 17 x) (rotr 19 x)) (x >>> 10)

def chWord (x y z : Nat) : Nat := Nat.xor (Nat.land x y) (Nat.land (not32 x) z)

def majWord (x y z : Nat) : Nat :=
  Nat.xor (Nat.xor (Nat.land x y) (Nat.land x z)) (Nat.land y z)

/-- The 64 SHA-256 round constants (decimal). -/
def K : List Nat :=
  [1116352408, 1899447441, 3049323471, 3921009573, 961987163,
   1508970993, 2453635748, 2870763221, 3624381080, 310598401,
   607225278, 1426881987, 1925078388, 2162078206, 2614888103,
   3248222580, 3835390401, 4022224774, 264347078, 604807628,
   770255983, 1249150122, 1555081692, 1996064986, 2554220882,
   2821834349, 2952996808, 3210313671, 3336571891, 3584528711,
   113926993, 338241895, 666307205, 773529912, 1294757372,
   1396182291, 1695183700, 1986661051, 2177026350, 2456956037,
   2730485921, 2820302411, 3259730800, 3345764771, 3516065817,
   3600352804, 4094571909, 275423344, 430227734, 506948616,
   659060556, 883997877, 958139571, 1322822218, 1537002063,
   1747873779, 1955562222, 2024104815, 2227730452, 2361852424,
   2428436474, 2756734187, 3204031479, 3329325298]

/-- The eight SHA-256 working variables. -/
structure Hash8 where
  a : Nat
  b : Nat
  c : Nat
  d : Nat
  e : Nat
  f : Nat
  g : Nat
  h : Nat
deriving DecidableEq

/-- SHA-256 initial hash value. -/
def initH : Hash8 :=
  ⟨1779033703, 3144134277, 1013904242, 2773480762, 1359893119, 2600822924, 528734635, 1541459225⟩

/-- One compression round. -/
def roundStep (s : Hash8) (k w : Nat) : Hash8 :=
  let t1 := add32 s.h (add32 (bigSigma1 s.e) (add32 (chWord s.e s.f s.g) (add32 k w)))
  let t2 := add32 (bigSigma0 s.a) (majWord s.a s.b s.c)
  ⟨add32 t1 t2, s.a, s.b, s.c, add32 s.d t1, s.e, s.f, s.g⟩

/-- Big-endian 32-bit words from a byte list (the 16 words of a 64-byte chunk). -/
def bytesToWords : List Nat → List Nat
  | b0 :: b1 :: b2 :: b3 :: rest =>
      (b0 * 16777216 + b1 * 65536 + b2 * 256 + b3) :: bytesToWords rest
  | _ => []

/-- Extend 16 message-schedule words to 64. -/
def extendW (w : List Nat) : List Nat :=
  (List.range 48).foldl
    (fun w _ =>
      let t := w.length
      w ++ [add32 (add32 (smallSigma1 (w.getD (t - 2) 0)) (w.getD (t - 7) 0))
              (add32 (smallSigma0 (w.getD (t - 15) 0)) (w.getD (t - 16) 0))])
    w

/-- Compression of a single 64-byte chunk into the running hash. -/
def compress (hs : Hash8) (chunk : List Nat) : Hash8 :=
  let w := extendW (bytesToWords chunk)
  let s := ((K.zip w).foldl (fun s kw => roundStep s kw.1 kw.2) hs)
  ⟨add32 hs.a s.a, add32 hs.b s.b, add32 hs.c s.c, add32 hs.d s.d,
   add32 hs.e s.e, add32 hs.f s.f, add32 hs.g s.g, add32 hs.h s.h⟩

/-- The eight big-endian length bytes closing the SHA-256 padding. -/
def lengthBytes (n : Nat) : List Nat :=
  [n >>> 56 % 256, n >>> 48 % 256, n >>> 40 % 256, n >>> 32 % 256,
   n >>> 24 % 256, n >>> 16 % 256, n >>> 8 % 256, n % 256]

/-- SHA-256 message padding: `0x80`, zeros to 56 mod 64, then the bit length. -/
def padBytes (msg : List Nat) : List Nat :=
  msg ++ 128 :: List.replicate ((119 - msg.length % 64) % 64) 0 ++ lengthBytes (8 * msg.length)

/-- Split a padded message into 64-byte chunks.  The structural fuel
argument (an upper bound on the chunk count; every step consumes at least
one byte, so the byte count suffices) keeps the definition computing in the
kernel. -/
def chunksOf64Aux : Nat → List Nat → List (List Nat)
  | 0, _ => []
  | _, [] => []
  | fuel + 1, b :: l => (b :: l).take 64 :: chunksOf64Aux fuel ((b :: l).drop 64)

def chunksOf64 (l : List Nat) : List (List Nat) := chunksOf64Aux l.length l

/-- Big-endian bytes of one hash word. -/
def wordBytes (w : Nat) : List Nat :=
  [w >>> 24 % 256, w >>> 16 % 256, w >>> 8 % 256, w % 256]

/-- The 32 digest bytes of a final hash state. -/
def digestBytes (hs : Hash8) : List Nat :=
  wordBytes hs.a ++ wordBytes hs.b ++ wordBytes hs.c ++ wordBytes hs.d ++
  wordBytes hs.e ++ wordBytes hs.f ++ wordBytes hs.g ++ wordBytes hs.h

/-- SHA-256 digest (32 bytes) of a byte message. -/
def sha256Bytes (msg : List Nat) : List Nat :=
  digestBytes ((chunksOf64 (padBytes msg)).foldl compress initH)

/-- The sixteen lowercase hexadecimal digit characters, in value order. -/
def hexChars : List Char := "0123456789abcdef".data

/-- Digit character for a value below 16, as JavaScript `toString(16)` emits. -/
def hexDigitChar (n : Nat) : Char := hexChars.getD n (Char.ofNat 48)

/-- Accumulator pass of JavaScript `Number.prototype.toString(16)` for a
nonnegative integer: most significant digit first, lowercase.  The fuel
argument (structurally decreasing, so the definition computes in the
kernel) bounds the digit count; `n + 1` always suffices since the value
shrinks by a factor of 16 at each step. -/
def jsHexAux : Nat → Nat → List Char → List Char
  | 0, _, acc => acc
  | fuel + 1, n, acc =>
    if n < 16 then hexDigitChar n :: acc
    else jsHexAux fuel (n / 16) (hexDigitChar (n % 16) :: acc)

/-- JavaScript `n.toString(16)` as a character list. -/
def jsHex (n : Nat) : List Char := jsHexAux (n + 1) n []

/-- JavaScript `s.padStart(2, "0")` on a digit list. -/
def padStart2 (l : List Char) : List Char :=
  if l.length < 2 then List.replicate (2 - l.length) (Char.ofNat 48) ++ l else l

/-- One byte rendered as `b.toString(16).padStart(2, "0")`. -/
def hexByte (b : Nat) : List Char := padStart2 (jsHex b)

/-- `Array.from(bytes).map(b => b.toString(16).padStart(2, "0")).join("")`. -/
def hexOfBytes (bs : List Nat) : String := String.mk (bs.flatMap hexByte)

/-- `TextEncoder.encode`: the UTF-8 bytes of a string (the byte list
underlying `String.toUTF8`, kept as a plain list so it computes in the
kernel). -/
def utf8Bytes (s : String) : List Nat :=
  (s.data.flatMap String.utf8EncodeChar).map (fun b => b.toNat)

/-- Lowercase-hex SHA-256 digest of the UTF-8 bytes of a string: the model of
`crypto.subtle.digest` followed by the hex rendering both hash sites use. -/
def sha256Hex (s : String) : String := hexOfBytes (sha256Bytes (utf8Bytes s))

end Sha

namespace Worker

/-- `hashPrompt` from `src/worker.tsx`: SHA-256 hex of the UTF-8 bytes of
`prompt.trim().toLowerCase()`. -/
def hashPrompt (prompt : String) : String := Sha.sha256Hex (jsToLower (jsTrim prompt))

/-- The normalization `hashPrompt` applies before hashing. -/
def normalize (prompt : String) : String := jsToLower (jsTrim prompt)

end Worker

namespace Hash

/-- `hashPrompt` from `src/utils/hash.ts`: SHA-256 hex of the UTF-8 bytes of
`content.trim()` (no case folding in this variant). -/
def hashPrompt (content : String) : String := Sha.sha256Hex (jsTrim content)

/-- The normalization this variant applies before hashing. -/
def normalize (content : String) : String := jsTrim content

end Hash

namespace Container

/-!
Model of the container compilation service (`container/compile-service.js`,
identical in the `compileCode` function of the untracked service variant).

The import scan is the global regular expression
`from\s+[quote]([^quote\s]+)[quote]` where `[quote]` is any of the three
JavaScript quote characters: the engine tries each start position left to
right, and on a match resumes after it.  Greedy matching never needs to
backtrack here because the quote characters are not whitespace and the
specifier class excludes both quotes and whitespace.  The per-match second
regular-expression application in the source re-extracts capture group 1
from the matched substring, which is exactly the specifier the scan below
yields directly.
-/

/-- A character admitted inside the captured specifier: not a quote, not
whitespace (the class excluding quotes and whitespace). -/
def isSpecChar (c : Char) : Bool := !(isQuoteChar c || isJsWhitespace c)

/-- Attempt to match the import pattern (literal "from", one or more
whitespace characters, a quote, one or more specifier characters, a quote)
at the head of the input.  Returns the captured specifier together with the
input remaining after the full match. -/
def tryMatchFrom (l : List Char) : Option (List Char × List Char) :=
  if l.take 4 = ['f', 'r', 'o', 'm'] then
    let rest := l.drop 4
    let ws := rest.takeWhile isJsWhitespace
    let rest2 := rest.dropWhile isJsWhitespace
    if ws.isEmpty then none
    else
      match rest2 with
      | [] => none
      | q :: rest3 =>
        if isQuoteChar q then
          let spec := rest3.takeWhile isSpecChar
          let rest4 := rest3.dropWhile isSpecChar
          if spec.isEmpty then none
          else
            match rest4 with
            | [] => none
            | q2 :: rest5 => if isQuoteChar q2 then some (spec, rest5) else none
        else none
  else none

theorem tryMatchFrom_shrinks {l s rem : List Char}
    (h : tryMatchFrom l = some (s, rem)) : rem.length < l.length := by
  simp only [tryMatchFrom] at h
  split at h
  case isFalse => simp at h
  case isTrue htake =>
    have hlen4 : 4 ≤ l.length := by
      have h4 := congrArg List.length htake
      simp [List.length_take] at h4
      omega
    split at h
    case isTrue => simp at h
    case isFalse =>
      split at h
      case h_1 => simp at h
      case h_2 =>
        rename_i q rest3 heq2
        split at h
        case isFalse => simp at h
        case isTrue =>
          split at h
          case isTrue => simp at h
          case isFalse =>
            split at h
            case h_1 => simp at h
            case h_2 =>
              rename_i q2 rest5 heq4
              split at h
              case isFalse => simp at h
              case isTrue =>
                have hrem : rest5 = rem := by
                  simp only [Option.some.injEq, Prod.mk.injEq] at h
                  exact h.2
                have h1 : rem.length < rest3.length := by
                  rw [← hrem]
                  have hlen := congrArg List.length heq4
                  have hd := (List.dropWhile_suffix (l := rest3) isSpecChar).length_le
                  simp at hlen
                  omega
                have h2 : rest3.length < (l.drop 4).length := by
                  have hlen := congrArg List.length heq2
                  have hd := (List.dropWhile_suffix (l := l.drop 4) isJsWhitespace).length_le
                  simp at hlen
                  omega
                have h3 : (l.drop 4).length = l.length - 4 := by simp
                omega

/-- Left-to-right global scan: try the pattern at each position, resume after
each full match.  The fuel argument is an upper bound on the number of scan
steps; since every step consumes at least one character
(`tryMatchFrom_shrinks`), fuel equal to the input length makes the scan run
to the end of the input, and `scanAux_fuel` shows any sufficient fuel yields
the same result. -/
def scanAux : Nat → List Char → List String
  | 0, _ => []
  | fuel + 1, l =>
    match l with
    | [] => []
    | c :: rest =>
      match tryMatchFrom (c :: rest) with
      | some (spec, remaining) => String.mk spec :: scanAux fuel remaining
      | none => scanAux fuel rest

theorem scanAux_fuel : ∀ (f1 f2 : Nat) {l : List Char},
    l.length ≤ f1 → l.length ≤ f2 → scanAux f1 l = scanAux f2 l := by
  intro f1
  induction f1 with
  | zero =>
    intro f2 l h1 _
    have : l = [] := List.eq_nil_of_length_eq_zero (by omega)
    subst this
    cases f2 <;> rfl
  | succ f ih =>
    intro f2 l h1 h2
    cases f2 with
    | zero =>
      have : l = [] := List.eq_nil_of_length_eq_zero (by omega)
      subst this
      rfl
    | succ k =>
      cases l with
      | nil => rfl
      | cons c rest =>
        simp only [scanAux]
        cases hm : tryMatchFrom (c :: rest) with
        | some pr =>
          obtain ⟨spec, remaining⟩ := pr
          have hlt := tryMatchFrom_shrinks hm
          simp only [List.length_cons] at h1 h2 hlt
          exact congrArg (String.mk spec :: .) (ih k (by omega) (by omega))
        | none =>
          simp only [List.length_cons] at h1 h2
          exact ih k (by omega) (by omega)

/-- All specifiers matched by the global import scan over the source text. -/
def scanSpecifiers (code : String) : List String := scanAux code.data.length code.data

/-- The package-collection loop of `compileCode`: push each scanned specifier
unless it starts with "http", "./" or "../". -/
def extractPackages (code : String) : List String :=
  (scanSpecifiers code).foldl
    (fun packages p =>
      if !(jsStartsWith p "http" || jsStartsWith p "./" || jsStartsWith p "../")
      then packages ++ [p] else packages)
    []

/-- Result shape returned by the compile service
(`mainCode` / `additionalModules` / `packages`). -/
structure CompilerResult where
  mainCode : String
  additionalModules : List (String × String)
  packages : List String
deriving DecidableEq

/-- Environment of one `compileCode` call: the workspace timestamp and the
outcomes of the two sidecar build commands (`bun install`, `bun build`). -/
structure BuildEnv where
  now : Nat
  install : Except String Unit
  bundle : Except String String
deriving DecidableEq

/-- Effect trace of one `compileCode` call. -/
structure BuildTrace where
  workspaceCreated : Bool
  installRan : Bool
  bundleRan : Bool
deriving DecidableEq

/-- Result, final filesystem, and trace of one `compileCode` call. -/
structure BuildOut where
  result : Except String CompilerResult
  fs : List String
  trace : BuildTrace
deriving DecidableEq

/-- The ephemeral workspace path `/tmp/worker-` followed by `Date.now()`. -/
def workspaceDir (env : BuildEnv) : String := "/tmp/worker-" ++ Nat.repr env.now

/-- Recursive, forced removal of the workspace: drops every path under it. -/
def rmWorkspace (ws : String) (fs : List String) : List String :=
  fs.filter (fun p => !jsStartsWith p ws)

/-- `compileCode` from the container compile service.  The filesystem is
modelled as the list of existing paths; `mkdir` plus the two `writeFile`
calls add the workspace paths, and the `finally` block removes everything
under the workspace on success and on every failure path. -/
def compileCode (env : BuildEnv) (fs : List String) (code : String) : BuildOut :=
  let packages := extractPackages code
  if packages.isEmpty then
    ⟨.ok ⟨code, [], []⟩, fs, ⟨false, false, false⟩⟩
  else
    let ws := workspaceDir env
    let fs1 := fs ++ [ws, ws ++ "/package.json", ws ++ "/worker.js"]
    match env.install with
    | .error e => ⟨.error e, rmWorkspace ws fs1, ⟨true, true, false⟩⟩
    | .ok _ =>
      match env.bundle with
      | .error e => ⟨.error e, rmWorkspace ws fs1, ⟨true, true, true⟩⟩
      | .ok out => ⟨.ok ⟨out, [], packages⟩, rmWorkspace ws fs1, ⟨true, true, true⟩⟩

end Container

namespace Worker

/-- The output kinds the generation schema enumerates. -/
inductive OutputType
  | text
  | json
  | html
  | image
  | svg
  | csv
  | xml
deriving DecidableEq

/-- The structured generation result (`generateObject` schema of
`worker.tsx`): code, example input, declared output type and description. -/
structure GenObj where
  typescript : String
  exampleInput : String
  outputType : OutputType
  outputDescription : String
deriving DecidableEq

/-- The `CachedTool` record stored at `tools/<hash>.json` in R2. -/
structure CachedTool where
  hash : String
  bundledCode : String
  createdAt : Nat
  packages : List String
  outputType : OutputType
  outputDescription : String
deriving DecidableEq

/-- External collaborators and failure switches of one `/api/tool` request:
the generation backend, the compile service (its response already unwrapped
to bundled code and package list), the R2 `put` outcome, and the worker
loader execution. -/
structure Env where
  openaiKey : Bool
  gen : String → Except String GenObj
  compile : String → Except String (String × List String)
  setFails : Bool
  setErr : String
  exec : String → String → String → Except String (String × String)
  now : Nat

/-- Server state touched by `/api/tool`: the R2 tool cache (keyed by prompt
hash; the `tools/<hash>.json` path prefix is dropped as it is a bijective
rename of the key) and the in-memory prompt history. -/
structure St where
  cache : List (String × CachedTool)
  history : List String
deriving DecidableEq

/-- Body of a `/api/tool` request. -/
structure Req where
  prompt : Option String
  input : String
  forceRegenerate : Bool
deriving DecidableEq

/-- Response of `/api/tool`. -/
inductive Resp where
  | ok (output contentType : String) (outputType : OutputType) (outputDescription : String)
      (toolHash : String) (packages : List String) (cached : Bool) (generatedCode : String)
  | badRequest (error : String)
  | serverError (error : String)
deriving DecidableEq

def Resp.isOk : Resp → Bool
  | .ok .. => true
  | _ => false

/-- The `outputType` field of a successful response. -/
def Resp.outputKind : Resp → Option OutputType
  | .ok _ _ ot _ _ _ _ _ => some ot
  | _ => none

/-- The `packages` field of a successful response. -/
def Resp.resolvedPackages : Resp → Option (List String)
  | .ok _ _ _ _ _ ps _ _ => some ps
  | _ => none

/-- Which pipeline stages a request invoked. -/
structure Trace where
  hashCalled : Bool
  historyWritten : Bool
  cacheRead : Bool
  deleteCalled : Bool
  genCalled : Bool
  compileCalled : Bool
  setCalled : Bool
  execCalled : Bool
deriving DecidableEq

def trace0 : Trace := ⟨false, false, false, false, false, false, false, false⟩

/-- Result of one `/api/tool` request. -/
structure Out where
  st : St
  resp : Resp
  tr : Trace
deriving DecidableEq

/-- `PromptHistory.add`: no-op on whitespace-only prompts, otherwise move the
prompt to the front, drop prior identical entries, keep the first 50. -/
def historyAdd (history : List String) (prompt : String) : List String :=
  if jsTrim prompt = "" then history
  else (prompt :: history.filter (fun p => p != prompt)).take 50

/-- The `/api/tool` handler of `worker.tsx`.  `tool` is first forced to
`null` under `forceRegenerate`, therefore the subsequent
`forceRegenerate && tool` delete guard can never hold; the model keeps that
dead branch exactly as written.  The un-caught `cache.set` models the source,
where an R2 `put` rejection propagates to the surrounding catch-all. -/
def apiTool (env : Env) (st : St) (req : Req) : Out :=
  match req.prompt with
  | none => ⟨st, .badRequest "Missing prompt", trace0⟩
  | some prompt =>
    if jsTrim prompt = "" then ⟨st, .badRequest "Missing prompt", trace0⟩
    else
      let hash := Worker.hashPrompt prompt
      let st1 : St := { st with history := historyAdd st.history prompt }
      let tool0 := if req.forceRegenerate then none else alookup st1.cache hash
      let doDelete := req.forceRegenerate && tool0.isSome
      let st2 : St := if doDelete then { st1 with cache := aerase hash st1.cache } else st1
      let tool1 := if doDelete then none else tool0
      let readFlag := !req.forceRegenerate
      match tool1 with
      | some tool =>
        match env.exec tool.bundledCode req.input hash with
        | .error e =>
          ⟨st2, .serverError ("Tool failed: " ++ e),
            ⟨true, true, readFlag, doDelete, false, false, false, true⟩⟩
        | .ok (out, ctype) =>
          ⟨st2, .ok out ctype tool.outputType tool.outputDescription (takeJs hash 255)
              tool.packages true tool.bundledCode,
            ⟨true, true, readFlag, doDelete, false, false, false, true⟩⟩
      | none =>
        if !env.openaiKey then
          ⟨st2, .serverError "OpenAI API key not configured",
            ⟨true, true, readFlag, doDelete, false, false, false, false⟩⟩
        else
          match env.gen prompt with
          | .error e =>
            ⟨st2, .serverError ("Tool failed: " ++ e),
              ⟨true, true, readFlag, doDelete, true, false, false, false⟩⟩
          | .ok g =>
            match env.compile g.typescript with
            | .error e =>
              ⟨st2, .serverError ("Tool failed: " ++ e),
                ⟨true, true, readFlag, doDelete, true, true, false, false⟩⟩
            | .ok (bundled, pkgs) =>
              let tool : CachedTool :=
                ⟨hash, bundled, env.now, pkgs, g.outputType, g.outputDescription⟩
              if env.setFails then
                ⟨st2, .serverError ("Tool failed: " ++ env.setErr),
                  ⟨true, true, readFlag, doDelete, true, true, true, false⟩⟩
              else
                let st3 : St := { st2 with cache := ainsert hash tool st2.cache }
                match env.exec tool.bundledCode req.input hash with
                | .error e =>
                  ⟨st3, .serverError ("Tool failed: " ++ e),
                    ⟨true, true, readFlag, doDelete, true, true, true, true⟩⟩
                | .ok (out, ctype) =>
                  ⟨st3, .ok out ctype tool.outputType tool.outputDescription (takeJs hash 255)
                      tool.packages true tool.bundledCode,
                    ⟨true, true, readFlag, doDelete, true, true, true, true⟩⟩

/-- `/api/clear-history` of `worker.tsx`: clears only the in-memory history. -/
def clearHistory (st : St) : St := { st with history := [] }

end Worker

/-- Lexicographic (code-point, hence UTF-8 byte) order on character lists:
the order in which durable-object storage enumerates its keys. -/
def lexLtChars : List Char → List Char → Bool
  | [], [] => false
  | [], _ :: _ => true
  | _ :: _, [] => false
  | a :: as, b :: bs => if a < b then true else if b < a then false else lexLtChars as bs

/-- Lexicographic order on strings. -/
def lexLt (a b : String) : Bool := lexLtChars a.data b.data

theorem lexLtChars_irrefl (l : List Char) : lexLtChars l l = false := by
  induction l with
  | nil => rfl
  | cons a t ih => simp [lexLtChars, ih]

theorem lexLt_ne {a b : String} (h : lexLt a b = true) : b ≠ a := by
  intro he
  rw [he] at h
  rw [lexLt, lexLtChars_irrefl] at h
  cases h

namespace PromptLog

/-!
Model of the `PromptLog` durable object (`do.ts`).  Its storage maps string
keys (`Date.now().toString()` for history entries) to prompt strings; the
durable-object storage enumerates keys in lexicographic order, which the
model realizes by keeping the association list sorted in descending key
order (`reverse: true` iteration order).
-/

/-- Insert into the descending-sorted key-value storage, overwriting an
existing key. -/
def kvInsert (k v : String) : List (String × String) → List (String × String)
  | [] => [(k, v)]
  | (k', v') :: t =>
    if k = k' then (k, v) :: t
    else if lexLt k' k then (k, v) :: (k', v') :: t
    else (k', v') :: kvInsert k v t

/-- `PromptLog.write`: put the prompt at key `Date.now().toString()`, then
delete every key after the 20 newest. -/
def write (st : List (String × String)) (now : Nat) (prompt : String) : List (String × String) :=
  (kvInsert (Nat.repr now) prompt st).take 20

/-- `PromptLog.list`: values of at most the 20 newest keys, newest first. -/
def listVals (st : List (String × String)) : List String :=
  (st.map Prod.snd).take 20

/-- `PromptLog.clear`: `storage.deleteAll()`. -/
def clear : List (String × String) := []

end PromptLog

namespace Snap

/-!
Model of the application in the untracked worker variant: the
`/api/store-prompt`, `/api/generate-code`, `/api/execute-tool`, `/clear`,
`/api/tools/execute` and `/api/generate-and-execute` handlers, the
`R2ToolCache` artifact store and the per-hash generated-code durable
objects.
-/

/-- The structured generation result of this variant (code and example). -/
structure GenObj where
  typescript : String
  exampleInput : String
deriving DecidableEq

/-- The `CachedTool` record the `R2ToolCache` stores at
`tools/<hash>/compiled.json` (metadata flattened). -/
structure CachedTool where
  hash : String
  code : String
  nodeModules : List (String × String)
  createdAt : Nat
  packages : List String
deriving DecidableEq

/-- External collaborators and failure switches: generation backend,
`compileWithBun` (the container round trip), R2 and durable-object `put`
outcomes, and worker-loader execution (main module, extra modules, input,
isolate id). -/
structure Env where
  openaiKey : Bool
  loader : Bool
  gen : String → Except String GenObj
  compile : String → Except String Container.CompilerResult
  r2SetFails : Bool
  doSetFails : Bool
  exec : String → List (String × String) → String → String → Except String (String × String)
  now : Nat

/-- Server state: the per-hash generated-code durable objects
(`generated:<hash>`, each holding one record under its `generated` key), the
R2 artifact store keyed by prompt hash, and the history durable object. -/
structure St where
  genCache : List (String × GenObj)
  artifacts : List (String × CachedTool)
  history : List (String × String)
deriving DecidableEq

/-- `/api/store-prompt`: log the prompt unless it is empty or whitespace. -/
def storePrompt (env : Env) (st : St) (prompt : Option String) : St :=
  match prompt with
  | none => st
  | some p =>
    if jsTrim p = "" then st
    else { st with history := PromptLog.write st.history env.now p }

/-- Body of an `/api/execute-tool` request. -/
structure ExecReq where
  code : Option String
  input : String
  prompt : Option String
deriving DecidableEq

/-- Response of `/api/execute-tool`. -/
inductive ExecResp where
  | ok (output contentType : String)
  | badRequest (error : String)
  | serverError (error : String)
deriving DecidableEq

def ExecResp.isOk : ExecResp → Bool
  | .ok .. => true
  | _ => false

/-- Which stages an `/api/execute-tool` request invoked. -/
structure ExecTrace where
  hashCalled : Bool
  cacheRead : Bool
  compileCalled : Bool
  setCalled : Bool
  execCalled : Bool
deriving DecidableEq

/-- Result of one `/api/execute-tool` request. -/
structure ExecOut where
  st : St
  resp : ExecResp
  tr : ExecTrace
deriving DecidableEq

/-- The cache key of an `/api/execute-tool` request: hash of the prompt when
one is supplied and truthy (non-empty), otherwise hash of the code. -/
def execKey (req : ExecReq) (code : String) : String :=
  match req.prompt with
  | some p => if p = "" then Hash.hashPrompt code else Hash.hashPrompt p
  | none => Hash.hashPrompt code

/-- The `/api/execute-tool` handler.  Unlike the `/api/tool` variant, the
`cache.set` here sits in its own try/catch: an R2 `put` failure is logged and
the request continues with the in-memory compile result. -/
def executeTool (env : Env) (st : St) (req : ExecReq) : ExecOut :=
  match req.code with
  | none => ⟨st, .badRequest "No code provided", ⟨false, false, false, false, false⟩⟩
  | some code =>
    if jsTrim code = "" then
      ⟨st, .badRequest "No code provided", ⟨false, false, false, false, false⟩⟩
    else if !env.loader then
      ⟨st, .serverError "Worker Loaders not available - check wrangler.jsonc",
        ⟨false, false, false, false, false⟩⟩
    else
      let promptHash := execKey req code
      let isolateId := "tool:" ++ promptHash
      match alookup st.artifacts promptHash with
      | some ct =>
        match env.exec ct.code ct.nodeModules req.input isolateId with
        | .error e => ⟨st, .serverError e, ⟨true, true, false, false, true⟩⟩
        | .ok (out, ctype) => ⟨st, .ok out ctype, ⟨true, true, false, false, true⟩⟩
      | none =>
        match env.compile code with
        | .error e => ⟨st, .serverError e, ⟨true, true, true, false, false⟩⟩
        | .ok cr =>
          let newTool : CachedTool :=
            ⟨promptHash, cr.mainCode, cr.additionalModules, env.now, cr.packages⟩
          let st1 : St :=
            if env.r2SetFails then st
            else { st with artifacts := ainsert promptHash newTool st.artifacts }
          match env.exec cr.mainCode cr.additionalModules req.input isolateId with
          | .error e => ⟨st1, .serverError e, ⟨true, true, true, true, true⟩⟩
          | .ok (out, ctype) => ⟨st1, .ok out ctype, ⟨true, true, true, true, true⟩⟩

/-- Response of `/api/generate-code`. -/
inductive GenResp where
  | ok (g : GenObj)
  | err (status : Nat) (msg : String)
deriving DecidableEq

def GenResp.isOk : GenResp → Bool
  | .ok _ => true
  | _ => false

/-- Which stages an `/api/generate-code` request invoked. -/
structure GenTrace where
  hashCalled : Bool
  cacheRead : Bool
  genCalled : Bool
  setCalled : Bool
deriving DecidableEq

/-- Result of one `/api/generate-code` request. -/
structure GenOut where
  st : St
  resp : GenResp
  tr : GenTrace
deriving DecidableEq

def openBraceChar : Char := Char.ofNat 123

def closeBraceChar : Char := Char.ofNat 125

/-- The `/api/generate-code` handler: exact-prompt durable-object cache,
generation, the three structural validations, then best-effort caching of
the generated result. -/
def generateCode (env : Env) (st : St) (prompt : Option String) : GenOut :=
  match prompt with
  | none => ⟨st, .err 400 "Missing prompt", ⟨false, false, false, false⟩⟩
  | some p =>
    if jsTrim p = "" then ⟨st, .err 400 "Missing prompt", ⟨false, false, false, false⟩⟩
    else
      let promptHash := Hash.hashPrompt p
      match alookup st.genCache promptHash with
      | some cached => ⟨st, .ok cached, ⟨true, true, false, false⟩⟩
      | none =>
        if !env.openaiKey then
          ⟨st, .err 500 "OpenAI API key not configured", ⟨true, true, false, false⟩⟩
        else
          match env.gen p with
          | .error e => ⟨st, .err 500 ("OpenAI error: " ++ e), ⟨true, true, true, false⟩⟩
          | .ok g =>
            let code := jsTrim g.typescript
            if !(containsSub code "export default" && containsSub code "fetch(") then
              ⟨st, .err 500 "Generated code must export a Worker with fetch handler",
                ⟨true, true, true, false⟩⟩
            else if countChar code openBraceChar ≠ countChar code closeBraceChar then
              ⟨st, .err 500 "Syntax error: mismatched braces", ⟨true, true, true, false⟩⟩
            else if containsSub code "https:/esm.sh" then
              ⟨st, .err 500 "Import URL error: use https://esm.sh not https:/esm.sh",
                ⟨true, true, true, false⟩⟩
            else
              let cachedObj : GenObj := ⟨g.typescript, g.exampleInput⟩
              let st1 : St :=
                if env.doSetFails then st
                else { st with genCache := ainsert promptHash cachedObj st.genCache }
              ⟨st1, .ok ⟨g.typescript, g.exampleInput⟩, ⟨true, true, true, true⟩⟩

/-- One iteration of the `/clear` sweep: derive the listed prompt's key and
delete the corresponding `generated:<hash>` durable object and R2 artifact. -/
def clearStep (s : St) (p : String) : St :=
  let promptHash := Hash.hashPrompt p
  { s with genCache := aerase promptHash s.genCache,
           artifacts := aerase promptHash s.artifacts }

/-- The `/clear` handler: list the history, sweep each listed prompt's
caches, then clear the history durable object. -/
def clearAll (st : St) : St :=
  let prompts := PromptLog.listVals st.history
  let st1 := prompts.foldl clearStep st
  { st1 with history := PromptLog.clear }

/-- Response of `/api/tools/execute` (execute an already-cached tool). -/
inductive CachedResp where
  | ok (result contentType : String) (cached : Bool) (toolHash : String)
  | notFound (error suggestion : String)
  | badRequest (error : String)
  | serverError (error : String)
deriving DecidableEq

def CachedResp.isNotFound : CachedResp → Bool
  | .notFound .. => true
  | _ => false

/-- The `/api/tools/execute` handler: never generates; executes only when an
artifact already exists for the derived key, else 404. -/
def toolsExecute (env : Env) (st : St) (prompt : Option String) (input : String) :
    St × CachedResp :=
  match prompt with
  | none => (st, .badRequest "Missing prompt")
  | some p =>
    if jsTrim p = "" then (st, .badRequest "Missing prompt")
    else
      let promptHash := Hash.hashPrompt p
      match alookup st.artifacts promptHash with
      | none =>
        (st, .notFound "Tool not cached. Use /api/generate-and-execute first."
          ("POST /api/generate-and-execute with prompt: " ++ p))
      | some ct =>
        match env.exec ct.code ct.nodeModules input ("tool:" ++ promptHash) with
        | .error e => (st, .serverError ("Execution failed: " ++ e))
        | .ok (out, ctype) => (st, .ok out ctype true (takeJs promptHash 8))

/-- Response of `/api/generate-and-execute`. -/
inductive GaeResp where
  | ok (toolDescription result contentType exampleInput : String) (cached : Bool)
  | err (status : Nat) (msg : String)
deriving DecidableEq

/-- Result of one `/api/generate-and-execute` request. -/
structure GaeOut where
  st : St
  resp : GaeResp
  genTr : GenTrace
  execTr : ExecTrace
deriving DecidableEq

/-- The `/api/generate-and-execute` handler: generation step (with its
cache), then execution with the caller input or the generated example.  The
`x-cache` response header it looks for is never set by `/api/execute-tool`,
so the reported `cached` flag is always false. -/
def generateAndExecute (env : Env) (st : St) (prompt : Option String) (input : Option String) :
    GaeOut :=
  match prompt with
  | none => ⟨st, .err 400 "Missing prompt", ⟨false, false, false, false⟩,
      ⟨false, false, false, false, false⟩⟩
  | some p =>
    if jsTrim p = "" then
      ⟨st, .err 400 "Missing prompt", ⟨false, false, false, false⟩,
        ⟨false, false, false, false, false⟩⟩
    else
      let r1 := generateCode env st (some p)
      match r1.resp with
      | .err _ m => ⟨r1.st, .err 500 ("Generation failed: " ++ m), r1.tr,
          ⟨false, false, false, false, false⟩⟩
      | .ok g =>
        let execInput :=
          match input with
          | none => g.exampleInput
          | some i => if i = "" then g.exampleInput else i
        let r2 := executeTool env r1.st ⟨some g.typescript, execInput, some p⟩
        match r2.resp with
        | .ok out ctype => ⟨r2.st, .ok p out ctype g.exampleInput false, r1.tr, r2.tr⟩
        | .badRequest e => ⟨r2.st, .err 500 ("Execution failed: " ++ e), r1.tr, r2.tr⟩
        | .serverError e => ⟨r2.st, .err 500 ("Execution failed: " ++ e), r1.tr, r2.tr⟩

end Snap

/-! Store and string helper lemmas shared by the claim theorems. -/

theorem alookup_ainsert_self {α : Type} (k : String) (v : α) (l : List (String × α)) :
    alookup (ainsert k v l) k = some v := by
  simp [ainsert, alookup]

theorem alookup_aerase_self {α : Type} (k : String) (l : List (String × α)) :
    alookup (aerase k l) k = none := by
  induction l with
  | nil => rfl
  | cons kv t ih =>
    by_cases h : kv.1 = k
    · simpa [aerase, h] using ih
    · simpa [aerase, alookup, h] using ih

theorem alookup_aerase_none {α : Type} (k k' : String) (l : List (String × α))
    (h : alookup l k' = none) : alookup (aerase k l) k' = none := by
  induction l with
  | nil => rfl
  | cons kv t ih =>
    by_cases hk : kv.1 = k'
    · simp [alookup, hk] at h
    · by_cases hk2 : kv.1 = k
      · simp [alookup, hk] at h
        simpa [aerase, hk2] using ih h
      · simp [alookup, hk] at h
        simpa [aerase, alookup, hk, hk2] using ih h

theorem jsStartsWith_append_self (a b : String) : jsStartsWith (a ++ b) a = true := by
  rw [jsStartsWith, String.data_append, List.isPrefixOf_iff_prefix]
  exact List.prefix_append a.data b.data

theorem jsStartsWith_self (a : String) : jsStartsWith a a = true := by
  rw [jsStartsWith, List.isPrefixOf_iff_prefix]

/-- A string with a longer prefix also has each shorter prefix of it. -/
theorem jsStartsWith_of_prefix {s p q : String} (hp : jsStartsWith s p = true)
    (hq : jsStartsWith p q = true) : jsStartsWith s q = true := by
  rw [jsStartsWith, List.isPrefixOf_iff_prefix] at hp hq ⊢
  exact hq.trans hp

theorem rmWorkspace_fresh (ws : String) (fs : List String) (suf1 suf2 : String)
    (h : ∀ p ∈ fs, jsStartsWith p ws = false) :
    Container.rmWorkspace ws (fs ++ [ws, ws ++ suf1, ws ++ suf2]) = fs := by
  unfold Container.rmWorkspace
  rw [List.filter_append]
  have h1 : fs.filter (fun p => !jsStartsWith p ws) = fs :=
    List.filter_eq_self.mpr (fun p hp => by simp [h p hp])
  have h2 : List.filter (fun p => !jsStartsWith p ws) [ws, ws ++ suf1, ws ++ suf2] = [] := by
    simp [List.filter, jsStartsWith_self, jsStartsWith_append_self]
  rw [h1, h2, List.append_nil]

/-- C7: a source whose extracted external-dependency set is empty
short-circuits: `compileCode` returns the original source unchanged as the
main module, an empty auxiliary-module map and an empty package list, leaves
the filesystem untouched (no workspace), and runs neither build command. -/
theorem compile_no_dependency_fast_path (env : Container.BuildEnv) (fs : List String)
    (code : String) (h : Container.extractPackages code = []) :
    Container.compileCode env fs code =
      ⟨.ok ⟨code, [], []⟩, fs, ⟨false, false, false⟩⟩ := by
  simp [Container.compileCode, h]

theorem compile_no_dependency_fast_path_witness :
    Container.extractPackages "export default 42" = [] ∧
    Container.compileCode ⟨0, .ok (), .ok "bundled"⟩ ["/etc/hosts"] "export default 42" =
      ⟨.ok ⟨"export default 42", [], []⟩, ["/etc/hosts"], ⟨false, false, false⟩⟩ :=
  ⟨by decide, compile_no_dependency_fast_path _ _ _ (by decide)⟩

/-- C9: provided the workspace name is fresh (no pre-existing path lies under
it), `compileCode` leaves the filesystem exactly as it found it, on the
fast path, on the success path, and on both build-failure paths: the
ephemeral workspace and everything written inside it are removed by the
`finally` cleanup before `compileCode` returns. -/
theorem compile_workspace_teardown (env : Container.BuildEnv) (fs : List String) (code : String)
    (h : ∀ p ∈ fs, jsStartsWith p (Container.workspaceDir env) = false) :
    (Container.compileCode env fs code).fs = fs := by
  obtain ⟨now, install, bundle⟩ := env
  unfold Container.compileCode
  by_cases hp : (Container.extractPackages code).isEmpty
  · simp [hp]
  · simp only [hp, Bool.false_eq_true, if_false]
    cases install with
    | error e => exact rmWorkspace_fresh _ _ _ _ h
    | ok u =>
      cases bundle with
      | error e => exact rmWorkspace_fresh _ _ _ _ h
      | ok out => exact rmWorkspace_fresh _ _ _ _ h

theorem compile_workspace_teardown_witness :
    (∀ p ∈ ["/etc/hosts"],
      jsStartsWith p (Container.workspaceDir ⟨0, .error "bun install failed", .ok "x"⟩) = false) ∧
    (Container.compileCode ⟨0, .error "bun install failed", .ok "x"⟩ ["/etc/hosts"]
        "import a from \"uuid\"").fs = ["/etc/hosts"] ∧
    (Container.compileCode ⟨0, .error "bun install failed", .ok "x"⟩ ["/etc/hosts"]
        "import a from \"uuid\"").result = .error "bun install failed" :=
  ⟨by decide, compile_workspace_teardown _ _ _ (by decide), by decide⟩

/-- A request prompt that is absent, empty, or whitespace-only. -/
def promptBlank (p : Option String) : Bool :=
  match p with
  | none => true
  | some s => jsTrim s = ""

/-- C10: a pipeline request whose prompt is absent, empty or whitespace-only
is rejected with the "Missing prompt" 400 response by `/api/tool`,
`/api/generate-code` and `/api/generate-and-execute` alike, with the state
untouched and the all-false stage trace: no key is derived, no store is read
or written, and no generation, compilation or execution occurs. -/
theorem missing_prompt_rejected (p : Option String) (h : promptBlank p = true)
    (wenv : Worker.Env) (wst : Worker.St) (input : String) (frc : Bool)
    (senv : Snap.Env) (sst : Snap.St) (ginput : Option String) :
    Worker.apiTool wenv wst ⟨p, input, frc⟩ = ⟨wst, .badRequest "Missing prompt", Worker.trace0⟩ ∧
    Snap.generateCode senv sst p = ⟨sst, .err 400 "Missing prompt", ⟨false, false, false, false⟩⟩ ∧
    Snap.generateAndExecute senv sst p ginput =
      ⟨sst, .err 400 "Missing prompt", ⟨false, false, false, false⟩,
        ⟨false, false, false, false, false⟩⟩ := by
  cases p with
  | none => exact ⟨rfl, rfl, rfl⟩
  | some s =>
    simp only [promptBlank, decide_eq_true_eq] at h
    refine ⟨?_, ?_, ?_⟩ <;>
      simp [Worker.apiTool, Snap.generateCode, Snap.generateAndExecute, h, Worker.trace0]

theorem missing_prompt_rejected_witness :
    promptBlank (some "  \t ") = true ∧
    (Worker.apiTool
        ⟨true, fun _ => .error "g", fun _ => .error "c", false, "s",
          fun _ _ _ => .error "e", 0⟩
        ⟨[], []⟩ ⟨some "  \t ", "", false⟩).resp = .badRequest "Missing prompt" :=
  ⟨by decide,
    by
      rw [(missing_prompt_rejected (some "  \t ") (by decide) _ ⟨[], []⟩ "" false
        ⟨true, true, fun _ => .error "g", fun _ => .error "c", false, false,
          fun _ _ _ _ => .error "e", 0⟩ ⟨[], [], []⟩ none).1]⟩

/-- The cached artifact present before the force-regenerate request. -/
def toolC1 : Worker.CachedTool := ⟨Worker.hashPrompt "p", "cached-code", 0, [], .text, "d"⟩

/-- Collaborator environment for the force-regenerate run: generation,
compilation, persistence and execution all succeed. -/
def envC1 : Worker.Env where
  openaiKey := true
  gen := fun _ => .ok ⟨"gen-code", "e", .text, "d"⟩
  compile := fun c => .ok (c, [])
  setFails := false
  setErr := "put failed"
  exec := fun _ _ _ => .ok ("out", "text/plain")
  now := 5

/-- State holding a cached artifact for the derived key of prompt "p". -/
def stC1 : Worker.St := ⟨[(Worker.hashPrompt "p", toolC1)], []⟩

/-- C1 (evaluating the code at the failing input): a `/api/tool` request with
`forceRegenerate = true` whose derived key has a cached artifact never
executes the R2 delete — `tool` is already forced to `null` before the
`forceRegenerate && tool` guard, so the guard is unsatisfiable — although
the generation backend and the compiler are invoked again.  The claimed
"delete any existing ArtifactStore entry before proceeding" does not happen. -/
theorem worker_forceRegenerate_skips_delete :
    alookup stC1.cache (Worker.hashPrompt "p") = some toolC1 ∧
    (Worker.apiTool envC1 stC1 ⟨some "p", "", true⟩).tr.deleteCalled = false ∧
    (Worker.apiTool envC1 stC1 ⟨some "p", "", true⟩).tr.genCalled = true ∧
    (Worker.apiTool envC1 stC1 ⟨some "p", "", true⟩).tr.compileCalled = true :=
  ⟨by simp [stC1, alookup], rfl, rfl, rfl⟩

/-- The discard predicate the compile service actually applies (kept iff none
of the three prefixes match). -/
def keepPred (p : String) : Bool :=
  !(jsStartsWith p "http" || jsStartsWith p "./" || jsStartsWith p "../")

/-- Bare package specifier in the sense of the specification: not a relative
path, not an absolute path, not a full URL. -/
def isBareSpecifier (p : String) : Bool :=
  !(jsStartsWith p "./" || jsStartsWith p "../" || jsStartsWith p "/" ||
    jsStartsWith p "http://" || jsStartsWith p "https://")

theorem foldl_push_filter (pred : String → Bool) (l : List String) :
    l.foldl (fun acc p => if pred p then acc ++ [p] else acc) [] = l.filter pred := by
  have key : ∀ (l : List String) (init : List String),
      l.foldl (fun acc p => if pred p then acc ++ [p] else acc) init = init ++ l.filter pred := by
    intro l
    induction l with
    | nil => intro init; simp
    | cons a t ih =>
      intro init
      by_cases h : pred a <;> simp [List.filter, h, ih]
  simpa using key l []

/-- C6 counterexample: the extraction does not keep exactly the bare
specifiers.  An absolute path is kept (the code only rejects the prefixes
"http", "./" and "../"), and a bare package name beginning with "http" is
discarded. -/
theorem extract_keeps_absolute_path :
    Container.extractPackages "import a from \"/abs/a\"" = ["/abs/a"] ∧
    isBareSpecifier "/abs/a" = false ∧
    (Container.scanSpecifiers "import a from \"/abs/a\"").filter isBareSpecifier = [] ∧
    Container.extractPackages "import h from \"http-errors\"" = [] ∧
    isBareSpecifier "http-errors" = true ∧
    (Container.scanSpecifiers "import h from \"http-errors\"").filter isBareSpecifier
      = ["http-errors"] :=
  ⟨by decide, by decide, by decide, by decide, by decide, by decide⟩

/-- C6 amended: the extracted external-dependency list contains exactly the
scanned specifiers that do not start with "http", "./" or "../".  In
particular every "./" or "../" relative path and every http(s) URL is
discarded, and every scanned specifier free of those three prefixes — which
includes absolute paths but excludes bare names starting with "http" — is
kept. -/
theorem extract_filter_characterization (code : String) :
    Container.extractPackages code = (Container.scanSpecifiers code).filter keepPred ∧
    (∀ p ∈ Container.extractPackages code,
      jsStartsWith p "./" = false ∧ jsStartsWith p "../" = false ∧
      jsStartsWith p "http://" = false ∧ jsStartsWith p "https://" = false) ∧
    (∀ p ∈ Container.scanSpecifiers code,
      jsStartsWith p "http" = false → jsStartsWith p "./" = false →
      jsStartsWith p "../" = false → p ∈ Container.extractPackages code) := by
  have hchar : Container.extractPackages code = (Container.scanSpecifiers code).filter keepPred :=
    foldl_push_filter keepPred (Container.scanSpecifiers code)
  refine ⟨hchar, ?_, ?_⟩
  · intro p hp
    rw [hchar, List.mem_filter] at hp
    obtain ⟨-, hkeep⟩ := hp
    simp only [keepPred, Bool.not_eq_true', Bool.or_eq_false_iff] at hkeep
    obtain ⟨⟨hhttp, hrel⟩, hrel2⟩ := hkeep
    refine ⟨hrel, hrel2, ?_, ?_⟩
    · by_contra hc
      simp only [Bool.not_eq_false] at hc
      have := jsStartsWith_of_prefix hc (by decide : jsStartsWith "http://" "http" = true)
      simp [this] at hhttp
    · by_contra hc
      simp only [Bool.not_eq_false] at hc
      have := jsStartsWith_of_prefix hc (by decide : jsStartsWith "https://" "http" = true)
      simp [this] at hhttp
  · intro p hp h1 h2 h3
    rw [hchar, List.mem_filter]
    exact ⟨hp, by simp [keepPred, h1, h2, h3]⟩

theorem extract_filter_characterization_witness :
    Container.scanSpecifiers "import x from \"uuid\"" = ["uuid"] ∧
    jsStartsWith "uuid" "http" = false ∧
    "uuid" ∈ Container.extractPackages "import x from \"uuid\"" :=
  ⟨by decide, by decide,
    (extract_filter_characterization "import x from \"uuid\"").2.2 "uuid"
      (by decide) (by decide) (by decide) (by decide)⟩

/-- Environment for the persistence-failure run of `/api/tool`: generation,
compilation and execution would all succeed, but the R2 `put` rejects. -/
def envC5 : Worker.Env where
  openaiKey := true
  gen := fun _ => .ok ⟨"gen-code", "e", .text, "d"⟩
  compile := fun c => .ok (c, [])
  setFails := true
  setErr := "r2 put rejected"
  exec := fun _ _ _ => .ok ("out", "text/plain")
  now := 5

/-- C5 counterexample: in the `/api/tool` variant the `cache.set` call is not
wrapped in its own try/catch, so a store-write failure propagates to the
catch-all and the request fails with a 500 even though the freshly compiled
tool was available in memory: a request that reached the Persisting step is
failed by a persistence error. -/
theorem worker_setFailure_fails_request :
    (Worker.apiTool envC5 ⟨[], []⟩ ⟨some "p", "", false⟩).tr.compileCalled = true ∧
    (Worker.apiTool envC5 ⟨[], []⟩ ⟨some "p", "", false⟩).tr.setCalled = true ∧
    (Worker.apiTool envC5 ⟨[], []⟩ ⟨some "p", "", false⟩).tr.execCalled = false ∧
    (Worker.apiTool envC5 ⟨[], []⟩ ⟨some "p", "", false⟩).resp =
      .serverError "Tool failed: r2 put rejected" :=
  ⟨rfl, rfl, rfl, rfl⟩

/-- C5 amended: in the `/api/execute-tool` variant the store write sits in
its own try/catch, so for every request that reaches the Persisting step (a
cache miss whose compile succeeded), a failing store write never fails the
request: the store is left unchanged, execution proceeds with the in-memory
compiled result and the response is successful.  The `/api/tool` variant
lacks that catch and fails such a request. -/
theorem executeTool_setFailure_recovers (env : Snap.Env) (st : Snap.St) (code : String)
    (input : String) (prompt : Option String)
    (hcode : jsTrim code ≠ "")
    (hloader : env.loader = true)
    (hmiss : alookup st.artifacts (Snap.execKey ⟨some code, input, prompt⟩ code) = none)
    (cr : Container.CompilerResult) (hcompile : env.compile code = .ok cr)
    (hset : env.r2SetFails = true)
    (out ctype : String)
    (hexec : env.exec cr.mainCode cr.additionalModules input
        ("tool:" ++ Snap.execKey ⟨some code, input, prompt⟩ code) = .ok (out, ctype)) :
    Snap.executeTool env st ⟨some code, input, prompt⟩ =
      ⟨st, .ok out ctype, ⟨true, true, true, true, true⟩⟩ := by
  simp [Snap.executeTool, hcode, hloader, hmiss, hcompile, hset, hexec]

/-- Concrete collaborators for the recovery witness. -/
def envC5w : Snap.Env where
  openaiKey := true
  loader := true
  gen := fun _ => .error "unused"
  compile := fun c => .ok ⟨c, [], []⟩
  r2SetFails := true
  doSetFails := false
  exec := fun _ _ _ _ => .ok ("ran", "text/plain")
  now := 9

theorem executeTool_setFailure_recovers_witness :
    jsTrim "export default 1" ≠ "" ∧
    Snap.executeTool envC5w ⟨[], [], []⟩ ⟨some "export default 1", "", some "p"⟩ =
      ⟨⟨[], [], []⟩, .ok "ran" "text/plain", ⟨true, true, true, true, true⟩⟩ :=
  ⟨by decide,
    executeTool_setFailure_recovers envC5w ⟨[], [], []⟩ "export default 1" "" (some "p")
      (by decide) rfl rfl ⟨"export default 1", [], []⟩ rfl rfl "ran" "text/plain" rfl⟩

/-- A cache-hit run of `/api/tool`: with `forceRegenerate = false`, a cached
tool under the derived key and a successful execution, the handler logs the
prompt, skips generation/compilation/persistence and answers from the cached
artifact. -/
theorem apiTool_hit (env : Worker.Env) (st : Worker.St) (prompt input : String)
    (htrim : jsTrim prompt ≠ "") (tool : Worker.CachedTool)
    (hl : alookup st.cache (Worker.hashPrompt prompt) = some tool)
    (out ct : String)
    (he : env.exec tool.bundledCode input (Worker.hashPrompt prompt) = .ok (out, ct)) :
    Worker.apiTool env st ⟨some prompt, input, false⟩ =
      ⟨{ st with history := Worker.historyAdd st.history prompt },
        .ok out ct tool.outputType tool.outputDescription
          (takeJs (Worker.hashPrompt prompt) 255) tool.packages true tool.bundledCode,
        ⟨true, true, true, false, false, false, false, true⟩⟩ := by
  simp [Worker.apiTool, htrim, hl, he]

/-- After a successful `/api/tool` run with `forceRegenerate = false`, the
resulting cache holds a tool under the derived key whose execution succeeds
and whose declared fields are exactly those of the response. -/
theorem apiTool_ok_state (env : Worker.Env) (st : Worker.St) (prompt input : String)
    (h1 : (Worker.apiTool env st ⟨some prompt, input, false⟩).resp.isOk = true) :
    jsTrim prompt ≠ "" ∧
    ∃ tool out ct,
      alookup (Worker.apiTool env st ⟨some prompt, input, false⟩).st.cache
          (Worker.hashPrompt prompt) = some tool ∧
      env.exec tool.bundledCode input (Worker.hashPrompt prompt) = .ok (out, ct) ∧
      (Worker.apiTool env st ⟨some prompt, input, false⟩).resp =
        .ok out ct tool.outputType tool.outputDescription
          (takeJs (Worker.hashPrompt prompt) 255) tool.packages true tool.bundledCode := by
  by_cases htrim : jsTrim prompt = ""
  · simp [Worker.apiTool, htrim, Worker.Resp.isOk] at h1
  · refine ⟨htrim, ?_⟩
    cases hl : alookup st.cache (Worker.hashPrompt prompt) with
    | some tool =>
      cases he : env.exec tool.bundledCode input (Worker.hashPrompt prompt) with
      | error e => simp [Worker.apiTool, htrim, hl, he, Worker.Resp.isOk] at h1
      | ok pr =>
        obtain ⟨out, ct⟩ := pr
        exact ⟨tool, out, ct, by simp [Worker.apiTool, htrim, hl, he], he,
          by simp [Worker.apiTool, htrim, hl, he]⟩
    | none =>
      by_cases hk : env.openaiKey
      case neg => simp [Worker.apiTool, htrim, hl, hk, Worker.Resp.isOk] at h1
      case pos =>
        cases hg : env.gen prompt with
        | error e => simp [Worker.apiTool, htrim, hl, hk, hg, Worker.Resp.isOk] at h1
        | ok g =>
          cases hc : env.compile g.typescript with
          | error e => simp [Worker.apiTool, htrim, hl, hk, hg, hc, Worker.Resp.isOk] at h1
          | ok pr =>
            obtain ⟨bundled, pkgs⟩ := pr
            by_cases hs : env.setFails
            · simp [Worker.apiTool, htrim, hl, hk, hg, hc, hs, Worker.Resp.isOk] at h1
            · cases he : env.exec bundled input (Worker.hashPrompt prompt) with
              | error e =>
                simp [Worker.apiTool, htrim, hl, hk, hg, hc, hs, he, Worker.Resp.isOk] at h1
              | ok pr2 =>
                obtain ⟨out, ct⟩ := pr2
                refine ⟨⟨Worker.hashPrompt prompt, bundled, env.now, pkgs,
                    g.outputType, g.outputDescription⟩, out, ct, ?_, he, ?_⟩
                · simp [Worker.apiTool, htrim, hl, hk, hg, hc, hs, he, alookup_ainsert_self]
                · simp [Worker.apiTool, htrim, hl, hk, hg, hc, hs, he]

/-- C2 (cache idempotence): for a prompt and two successive `/api/tool`
invocations with that identical prompt, the same input and
`forceRegenerate = false`, where the first succeeded (and hence cached its
artifact), the second invocation does not invoke the generation backend, is
itself successful, and returns the same `outputType` and the same
`packages` list as the first. -/
theorem worker_cache_idempotence (env : Worker.Env) (st : Worker.St) (prompt input : String)
    (h1 : (Worker.apiTool env st ⟨some prompt, input, false⟩).resp.isOk = true) :
    (Worker.apiTool env (Worker.apiTool env st ⟨some prompt, input, false⟩).st
        ⟨some prompt, input, false⟩).tr.genCalled = false ∧
    (Worker.apiTool env (Worker.apiTool env st ⟨some prompt, input, false⟩).st
        ⟨some prompt, input, false⟩).resp.isOk = true ∧
    (Worker.apiTool env (Worker.apiTool env st ⟨some prompt, input, false⟩).st
        ⟨some prompt, input, false⟩).resp.outputKind =
      (Worker.apiTool env st ⟨some prompt, input, false⟩).resp.outputKind ∧
    (Worker.apiTool env (Worker.apiTool env st ⟨some prompt, input, false⟩).st
        ⟨some prompt, input, false⟩).resp.resolvedPackages =
      (Worker.apiTool env st ⟨some prompt, input, false⟩).resp.resolvedPackages := by
  obtain ⟨htrim, tool, out, ct, hl, he, hresp⟩ := apiTool_ok_state env st prompt input h1
  have h2 := apiTool_hit env (Worker.apiTool env st ⟨some prompt, input, false⟩).st
    prompt input htrim tool hl out ct he
  rw [h2, hresp]
  exact ⟨rfl, rfl, rfl, rfl⟩

/-- Collaborators for the idempotence witness: deterministic generation,
pass-through compilation, reliable store and execution. -/
def envC2 : Worker.Env where
  openaiKey := true
  gen := fun _ => .ok ⟨"gen-code", "e", .json, "d"⟩
  compile := fun c => .ok (c, ["uuid"])
  setFails := false
  setErr := "unused"
  exec := fun _ _ _ => .ok ("out", "application/json")
  now := 7

theorem worker_cache_idempotence_witness :
    (Worker.apiTool envC2 ⟨[], []⟩ ⟨some "make a uuid tool", "", false⟩).resp.isOk = true ∧
    (Worker.apiTool envC2 (Worker.apiTool envC2 ⟨[], []⟩
        ⟨some "make a uuid tool", "", false⟩).st ⟨some "make a uuid tool", "", false⟩).tr.genCalled
      = false :=
  ⟨rfl, (worker_cache_idempotence envC2 ⟨[], []⟩ "make a uuid tool" "" rfl).1⟩

/-! Trim and hex-rendering lemmas for the key-derivation claim. -/

theorem dropWhile_ws_append {pre l : List Char} (h : ∀ c ∈ pre, isJsWhitespace c = true) :
    (pre ++ l).dropWhile isJsWhitespace = l.dropWhile isJsWhitespace := by
  induction pre with
  | nil => simp
  | cons c t ih =>
    have hc : isJsWhitespace c = true := h c (List.mem_cons_self c t)
    simp only [List.cons_append, List.dropWhile_cons, hc, if_true]
    exact ih (fun x hx => h x (List.mem_cons_of_mem c hx))

theorem dropWhile_append_of_ne_nil {p : Char → Bool} {l : List Char} (q : List Char)
    (h : l.dropWhile p ≠ []) : (l ++ q).dropWhile p = l.dropWhile p ++ q := by
  induction l with
  | nil => simp at h
  | cons c t ih =>
    by_cases hc : p c
    · simp only [List.dropWhile_cons, hc, if_true] at h
      simp only [List.cons_append, List.dropWhile_cons, hc, if_true]
      exact ih h
    · simp [List.cons_append, List.dropWhile_cons, hc]

/-- Surrounding whitespace never survives `trim`: padding a character list
with whitespace on both sides leaves its trimmed form unchanged. -/
theorem trimList_pad {pad1 pad2 l : List Char}
    (h1 : ∀ c ∈ pad1, isJsWhitespace c = true) (h2 : ∀ c ∈ pad2, isJsWhitespace c = true) :
    trimList (pad1 ++ l ++ pad2) = trimList l := by
  unfold trimList
  rw [List.append_assoc, dropWhile_ws_append h1]
  by_cases hl : l.dropWhile isJsWhitespace = []
  · have hall : ∀ c ∈ l, isJsWhitespace c = true := List.dropWhile_eq_nil_iff.mp hl
    have hlp : (l ++ pad2).dropWhile isJsWhitespace = [] :=
      List.dropWhile_eq_nil_iff.mpr (fun c hc => by
        rcases List.mem_append.mp hc with h | h
        exacts [hall c h, h2 c h])
    rw [hlp, hl]
  · rw [dropWhile_append_of_ne_nil pad2 hl, List.reverse_append,
      dropWhile_ws_append (fun c hc => h2 c (List.mem_reverse.mp hc))]

theorem jsTrim_pad (pad1 pad2 s : String)
    (h1 : ∀ c ∈ pad1.data, isJsWhitespace c = true)
    (h2 : ∀ c ∈ pad2.data, isJsWhitespace c = true) :
    jsTrim (pad1 ++ s ++ pad2) = jsTrim s := by
  unfold jsTrim
  rw [String.data_append, String.data_append]
  exact congrArg String.mk (trimList_pad h1 h2)

theorem hexDigitChar_mem {n : Nat} (h : n < 16) : Sha.hexDigitChar n ∈ Sha.hexChars := by
  unfold Sha.hexDigitChar
  have hlen : n < Sha.hexChars.length := by
    have h16 : Sha.hexChars.length = 16 := by decide
    omega
  rw [List.getD_eq_getElem _ _ hlen]
  exact List.getElem_mem hlen

/-- Rendering of a byte value: one padded digit below 16, two digits up to
255, always drawn from the lowercase hexadecimal alphabet. -/
theorem hexByte_eq {b : Nat} (h : b < 256) :
    Sha.hexByte b =
      if b < 16 then [Char.ofNat 48, Sha.hexDigitChar b]
      else [Sha.hexDigitChar (b / 16), Sha.hexDigitChar (b % 16)] := by
  unfold Sha.hexByte Sha.jsHex
  by_cases hb : b < 16
  · simp [Sha.jsHexAux, hb, Sha.padStart2]
  · have hb1 : ∃ f, b = f + 1 := ⟨b - 1, by omega⟩
    obtain ⟨f, rfl⟩ := hb1
    have hdiv : ¬((f + 1) / 16 < 16) = False := by
      simp only [eq_iff_iff, iff_false, not_not]
      omega
    simp only [Sha.jsHexAux, hb, if_false]
    have hdiv16 : (f + 1) / 16 < 16 := by omega
    cases hf : f with
    | zero => omega
    | succ f2 =>
      have : f2 + 1 + 1 = f2 + 2 := rfl
      simp only [hf] at *
      simp [Sha.jsHexAux, hdiv16, Sha.padStart2, hb]

theorem hexByte_length {b : Nat} (h : b < 256) : (Sha.hexByte b).length = 2 := by
  rw [hexByte_eq h]
  by_cases hb : b < 16 <;> simp [hb]

theorem hexByte_mem {b : Nat} (h : b < 256) : ∀ c ∈ Sha.hexByte b, c ∈ Sha.hexChars := by
  intro c hc
  rw [hexByte_eq h] at hc
  by_cases hb : b < 16
  · simp only [hb, if_true, List.mem_cons, List.not_mem_nil, or_false] at hc
    rcases hc with rfl | rfl
    · decide
    · exact hexDigitChar_mem hb
  · simp only [hb, if_false, List.mem_cons, List.not_mem_nil, or_false] at hc
    rcases hc with rfl | rfl
    · exact hexDigitChar_mem (by omega)
    · exact hexDigitChar_mem (Nat.mod_lt _ (by omega))

theorem wordBytes_lt (w : Nat) : ∀ b ∈ Sha.wordBytes w, b < 256 := by
  intro b hb
  simp only [Sha.wordBytes, List.mem_cons, List.not_mem_nil, or_false] at hb
  rcases hb with rfl | rfl | rfl | rfl <;> exact Nat.mod_lt _ (by omega)

theorem digestBytes_lt (hs : Sha.Hash8) : ∀ b ∈ Sha.digestBytes hs, b < 256 := by
  intro b hb
  simp only [Sha.digestBytes, List.mem_append, or_assoc] at hb
  rcases hb with h | h | h | h | h | h | h | h <;> exact wordBytes_lt _ b h

theorem digestBytes_length (hs : Sha.Hash8) : (Sha.digestBytes hs).length = 32 := by
  simp [Sha.digestBytes, Sha.wordBytes]

theorem flatMap_hexByte_length {bs : List Nat} (h : ∀ b ∈ bs, b < 256) :
    (bs.flatMap Sha.hexByte).length = 2 * bs.length := by
  induction bs with
  | nil => simp
  | cons b t ih =>
    have hb : (Sha.hexByte b).length = 2 := hexByte_length (h b (List.mem_cons_self b t))
    have ht := ih (fun x hx => h x (List.mem_cons_of_mem b hx))
    simp only [List.flatMap_cons, List.length_append, hb, ht, List.length_cons]
    ring

theorem string_mk_length (l : List Char) : (String.mk l).length = l.length := rfl

theorem sha256Bytes_lt (msg : List Nat) : ∀ b ∈ Sha.sha256Bytes msg, b < 256 :=
  digestBytes_lt _

theorem sha256Bytes_length (msg : List Nat) : (Sha.sha256Bytes msg).length = 32 :=
  digestBytes_length _

theorem sha256Hex_length (s : String) : (Sha.sha256Hex s).length = 64 := by
  unfold Sha.sha256Hex Sha.hexOfBytes
  rw [string_mk_length, flatMap_hexByte_length (sha256Bytes_lt _), sha256Bytes_length]

theorem sha256Hex_hexChars (s : String) : ∀ c ∈ (Sha.sha256Hex s).data, c ∈ Sha.hexChars := by
  intro c hc
  unfold Sha.sha256Hex Sha.hexOfBytes at hc
  obtain ⟨b, hb, hcb⟩ := List.mem_flatMap.mp hc
  exact hexByte_mem (sha256Bytes_lt _ b hb) c hcb

/-- C3 (key derivation): both `hashPrompt` variants are pure functions of
their normalization — equal normalized prompts give equal keys; surrounding
whitespace padding never changes the derived key of either variant; each key
is the SHA-256 digest of the normalized prompt rendered as exactly 64
lowercase hexadecimal characters. -/
theorem hashPrompt_key_derivation (s1 s2 s pad1 pad2 : String) :
    (Worker.normalize s1 = Worker.normalize s2 → Worker.hashPrompt s1 = Worker.hashPrompt s2) ∧
    (Hash.normalize s1 = Hash.normalize s2 → Hash.hashPrompt s1 = Hash.hashPrompt s2) ∧
    ((∀ c ∈ pad1.data, isJsWhitespace c = true) →
      (∀ c ∈ pad2.data, isJsWhitespace c = true) →
      Worker.hashPrompt (pad1 ++ s ++ pad2) = Worker.hashPrompt s ∧
      Hash.hashPrompt (pad1 ++ s ++ pad2) = Hash.hashPrompt s) ∧
    Worker.hashPrompt s = Sha.sha256Hex (Worker.normalize s) ∧
    Hash.hashPrompt s = Sha.sha256Hex (Hash.normalize s) ∧
    (Worker.hashPrompt s).length = 64 ∧
    (Hash.hashPrompt s).length = 64 ∧
    (∀ c ∈ (Worker.hashPrompt s).data, c ∈ Sha.hexChars) ∧
    (∀ c ∈ (Hash.hashPrompt s).data, c ∈ Sha.hexChars) := by
  refine ⟨fun h => congrArg Sha.sha256Hex h, fun h => congrArg Sha.sha256Hex h,
    fun h1 h2 => ⟨?_, ?_⟩, rfl, rfl, sha256Hex_length _, sha256Hex_length _,
    sha256Hex_hexChars _, sha256Hex_hexChars _⟩
  · exact congrArg (fun t => Sha.sha256Hex (jsToLower t)) (jsTrim_pad pad1 pad2 s h1 h2)
  · exact congrArg Sha.sha256Hex (jsTrim_pad pad1 pad2 s h1 h2)

theorem hashPrompt_key_derivation_witness :
    Worker.normalize "  make a tool " = Worker.normalize "make a tool" ∧
    Hash.normalize "  make a tool " = Hash.normalize "make a tool" ∧
    (∀ c ∈ (" " : String).data, isJsWhitespace c = true) ∧
    Worker.hashPrompt "  make a tool " = Worker.hashPrompt "make a tool" ∧
    Worker.hashPrompt (" " ++ "x" ++ " ") = Worker.hashPrompt "x" ∧
    (Worker.hashPrompt "x").length = 64 :=
  ⟨by decide, by decide, by decide,
    (hashPrompt_key_derivation "  make a tool " "make a tool" "x" " " " ").1 (by decide),
    ((hashPrompt_key_derivation "  make a tool " "make a tool" "x" " " " ").2.2.1
      (by decide) (by decide)).1,
    (hashPrompt_key_derivation "  make a tool " "make a tool" "x" " " " ").2.2.2.2.2.1⟩

theorem foldl_clearStep_preserves_none (prompts : List String) (s : Snap.St) (k : String)
    (hg : alookup s.genCache k = none) (ha : alookup s.artifacts k = none) :
    alookup (prompts.foldl Snap.clearStep s).genCache k = none ∧
    alookup (prompts.foldl Snap.clearStep s).artifacts k = none := by
  induction prompts generalizing s with
  | nil => exact ⟨hg, ha⟩
  | cons q t ih =>
    exact ih (Snap.clearStep s q) (alookup_aerase_none _ _ _ hg) (alookup_aerase_none _ _ _ ha)

theorem foldl_clearStep_none (prompts : List String) (s : Snap.St) (p : String)
    (hp : p ∈ prompts) :
    alookup (prompts.foldl Snap.clearStep s).genCache (Hash.hashPrompt p) = none ∧
    alookup (prompts.foldl Snap.clearStep s).artifacts (Hash.hashPrompt p) = none := by
  induction prompts generalizing s with
  | nil => cases hp
  | cons q t ih =>
    rcases List.mem_cons.mp hp with rfl | hmem
    · exact foldl_clearStep_preserves_none t (Snap.clearStep s p) _
        (alookup_aerase_self _ _) (alookup_aerase_self _ _)
    · exact ih (Snap.clearStep s q) hmem

/-- C4 amended: after the cascading clear, the history list is empty, and
every non-blank prompt that was present in the history list at the moment of
the clear has both its GeneratedCodeStore and its ArtifactStore entry
deleted, so a subsequent ExecuteCached request with that prompt returns
NotFound.  (Prompts that reached the pipeline without being recorded in the
bounded history — the pipeline endpoints do not write history — can retain
cached artifacts; see the counterexample.) -/
theorem clearAll_swept_prompts_notFound (env : Snap.Env) (st : Snap.St) (input : String)
    (p : String) (hp : p ∈ PromptLog.listVals st.history) (htrim : jsTrim p ≠ "") :
    PromptLog.listVals (Snap.clearAll st).history = [] ∧
    alookup (Snap.clearAll st).genCache (Hash.hashPrompt p) = none ∧
    alookup (Snap.clearAll st).artifacts (Hash.hashPrompt p) = none ∧
    (Snap.toolsExecute env (Snap.clearAll st) (some p) input).2.isNotFound = true := by
  have herase := foldl_clearStep_none (PromptLog.listVals st.history) st p hp
  have hg : alookup (Snap.clearAll st).genCache (Hash.hashPrompt p) = none := herase.1
  have ha : alookup (Snap.clearAll st).artifacts (Hash.hashPrompt p) = none := herase.2
  refine ⟨rfl, hg, ha, ?_⟩
  simp [Snap.toolsExecute, htrim, ha, Snap.CachedResp.isNotFound]

/-- History state holding one logged prompt, for the witness. -/
def stC4w : Snap.St :=
  ⟨[(Hash.hashPrompt "p", ⟨"ts", "ex"⟩)],
   [(Hash.hashPrompt "p", ⟨Hash.hashPrompt "p", "code", [], 0, []⟩)],
   [("1700000000000", "p")]⟩

theorem clearAll_swept_prompts_notFound_witness :
    "p" ∈ PromptLog.listVals stC4w.history ∧
    jsTrim "p" ≠ "" ∧
    (Snap.toolsExecute
        ⟨true, true, fun _ => .error "g", fun _ => .error "c", false, false,
          fun _ _ _ _ => .error "e", 0⟩
        (Snap.clearAll stC4w) (some "p") "").2.isNotFound = true :=
  ⟨by decide, by decide,
    (clearAll_swept_prompts_notFound
      ⟨true, true, fun _ => .error "g", fun _ => .error "c", false, false,
        fun _ _ _ _ => .error "e", 0⟩
      stC4w "" "p" (by decide) (by decide)).2.2.2⟩

/-- Generated worker source used in the cascading-clear counterexample
(passes all three structural validations). -/
def tsC4 : String :=
  "export default \x7b fetch(req) \x7b return new Response(42) \x7d \x7d"

/-- Collaborators for the cascading-clear counterexample: generation,
compilation, persistence and execution all succeed. -/
def envC4 : Snap.Env where
  openaiKey := true
  loader := true
  gen := fun _ => .ok ⟨tsC4, "ex"⟩
  compile := fun c => .ok ⟨c, [], []⟩
  r2SetFails := false
  doSetFails := false
  exec := fun _ _ _ _ => .ok ("hi", "text/plain")
  now := 3

/-- C4 counterexample: the prompt "p" is submitted to the pipeline through
`/api/generate-and-execute` (which, like every pipeline endpoint of this
variant, never writes the history log), its artifact is cached, and the run
succeeds.  `ClearAll` then sweeps only the (empty) history list, so a
subsequent ExecuteCached request with "p" still finds the artifact and
executes it instead of returning NotFound — contradicting "for every prompt
that was previously submitted to the pipeline, a subsequent ExecuteCached
request with that prompt returns NotFound". -/
theorem clearAll_misses_unlogged_prompt :
    (Snap.generateAndExecute envC4 ⟨[], [], []⟩ (some "p") none).resp =
      .ok "p" "hi" "text/plain" "ex" false ∧
    PromptLog.listVals
      (Snap.clearAll (Snap.generateAndExecute envC4 ⟨[], [], []⟩ (some "p") none).st).history
      = [] ∧
    (Snap.toolsExecute envC4
        (Snap.clearAll (Snap.generateAndExecute envC4 ⟨[], [], []⟩ (some "p") none).st)
        (some "p") "").2.isNotFound = false ∧
    (Snap.toolsExecute envC4
        (Snap.clearAll (Snap.generateAndExecute envC4 ⟨[], [], []⟩ (some "p") none).st)
        (some "p") "").2 =
      .ok "hi" "text/plain" true (takeJs (Hash.hashPrompt "p") 8) := by
  have hrun : Snap.generateAndExecute envC4 ⟨[], [], []⟩ (some "p") none =
      ⟨⟨[(Hash.hashPrompt "p", ⟨tsC4, "ex"⟩)],
        [(Hash.hashPrompt "p", ⟨Hash.hashPrompt "p", tsC4, [], 3, []⟩)], []⟩,
       .ok "p" "hi" "text/plain" "ex" false,
       ⟨true, true, true, true⟩, ⟨true, true, true, true, true⟩⟩ := by
    simp [Snap.generateAndExecute, Snap.generateCode, Snap.executeTool, envC4, Snap.execKey,
      ainsert, aerase, tsC4]
    decide
  have hclear : Snap.clearAll (Snap.generateAndExecute envC4 ⟨[], [], []⟩ (some "p") none).st =
      ⟨[(Hash.hashPrompt "p", ⟨tsC4, "ex"⟩)],
       [(Hash.hashPrompt "p", ⟨Hash.hashPrompt "p", tsC4, [], 3, []⟩)], []⟩ := by
    rw [hrun]
    rfl
  have hexec : (Snap.toolsExecute envC4
      (Snap.clearAll (Snap.generateAndExecute envC4 ⟨[], [], []⟩ (some "p") none).st)
      (some "p") "").2 =
      .ok "hi" "text/plain" true (takeJs (Hash.hashPrompt "p") 8) := by
    rw [hclear]
    simp [Snap.toolsExecute, envC4, alookup, (by decide : (jsTrim "p" = "") = False)]
  refine ⟨by rw [hrun], by rw [hclear]; rfl, by rw [hexec]; rfl, hexec⟩

/-! Lemmas for the history-bound claim. -/

/-- Deduplication keeping the first (most recent) occurrence. -/
def dedupFront : List String → List String
  | [] => []
  | a :: t => a :: (dedupFront t).filter (fun b => b != a)

theorem dedupFront_nodup (l : List String) : (dedupFront l).Nodup := by
  induction l with
  | nil => exact List.nodup_nil
  | cons a t ih =>
    simp only [dedupFront]
    refine List.nodup_cons.mpr ⟨?_, List.Nodup.filter _ ih⟩
    intro hmem
    have hne := (List.mem_filter.mp hmem).2
    simp at hne

/-- Prompts surviving the non-blank guard of the history append. -/
def filterOk (ps : List String) : List String := ps.filter (fun p => !(jsTrim p == ""))

theorem take_filter_take (p : String) (l : List String) (n k : Nat) (h : l.count p ≤ k) :
    ((l.take (n + k)).filter (fun b => b != p)).take n =
      (l.filter (fun b => b != p)).take n := by
  induction l generalizing n k with
  | nil => simp
  | cons a t ih =>
    by_cases ha : a = p
    · subst ha
      have hcount : t.count a + 1 ≤ k := by
        have := h
        rw [List.count_cons_self] at this
        omega
      obtain ⟨k2, rfl⟩ : ∃ k2, k = k2 + 1 := ⟨k - 1, by omega⟩
      have htk : n + (k2 + 1) = (n + k2) + 1 := by omega
      rw [htk, List.take_succ_cons]
      have hfa : ((a :: t.take (n + k2)).filter (fun b => b != a)) =
          (t.take (n + k2)).filter (fun b => b != a) := by
        simp [List.filter_cons]
      have hfa2 : ((a :: t).filter (fun b => b != a)) = t.filter (fun b => b != a) := by
        simp [List.filter_cons]
      rw [hfa, hfa2]
      exact ih n k2 (by omega)
    · have hq : (a != p) = true := by simp [ha]
      have hcount : t.count p ≤ k := by
        have := h
        rw [List.count_cons_of_ne (Ne.symm ha)] at this
        exact this
      rcases Nat.eq_zero_or_pos (n + k) with hnk | hnk
      · have hn : n = 0 := by omega
        simp [hn]
      · obtain ⟨m, hm⟩ : ∃ m, n + k = m + 1 := ⟨n + k - 1, by omega⟩
        rw [hm, List.take_succ_cons]
        have hfa : ((a :: t.take m).filter (fun b => b != p)) =
            a :: (t.take m).filter (fun b => b != p) := by
          simp [List.filter_cons, hq]
        have hfa2 : ((a :: t).filter (fun b => b != p)) =
            a :: t.filter (fun b => b != p) := by
          simp [List.filter_cons, hq]
        rw [hfa, hfa2]
        cases n with
        | zero => simp
        | succ n2 =>
          rw [List.take_succ_cons, List.take_succ_cons]
          have hmeq : m = n2 + k := by omega
          rw [hmeq]
          exact congrArg (a :: ·) (ih n2 k hcount)

/-- The in-memory history after any sequence of appends is the most-recent 50
distinct non-blank prompts, newest first: reverse the effective appends, keep
each prompt's most recent occurrence, truncate to 50. -/
theorem historyAdd_characterization (ps : List String) :
    ps.foldl Worker.historyAdd [] = (dedupFront (filterOk ps).reverse).take 50 := by
  induction ps using List.reverseRecOn with
  | nil => rfl
  | append_singleton ps p ih =>
    rw [List.foldl_append, List.foldl_cons, List.foldl_nil]
    by_cases hp : jsTrim p = ""
    · rw [ih]
      unfold Worker.historyAdd
      rw [if_pos hp]
      have hfo : filterOk (ps ++ [p]) = filterOk ps := by
        simp [filterOk, List.filter_append, hp]
      rw [hfo]
    · rw [ih]
      unfold Worker.historyAdd
      rw [if_neg hp]
      have hfo : filterOk (ps ++ [p]) = filterOk ps ++ [p] := by
        simp [filterOk, List.filter_append, hp]
      rw [hfo, List.reverse_append, List.reverse_singleton, List.singleton_append]
      show (p :: ((dedupFront ((filterOk ps).reverse)).take 50).filter
          (fun b => b != p)).take 50 =
        (p :: (dedupFront ((filterOk ps).reverse)).filter (fun b => b != p)).take 50
      rw [show (50 : Nat) = 49 + 1 from rfl, List.take_succ_cons, List.take_succ_cons]
      refine congrArg (p :: ·) ?_
      have hone : (dedupFront ((filterOk ps).reverse)).count p ≤ 1 :=
        List.nodup_iff_count_le_one.mp (dedupFront_nodup _) p
      exact take_filter_take p _ 49 1 hone

theorem kvInsert_gt (k v : String) (m : List (String × String))
    (h : ∀ kv ∈ m, lexLt kv.1 k = true) : PromptLog.kvInsert k v m = (k, v) :: m := by
  cases m with
  | nil => rfl
  | cons kv t =>
    obtain ⟨k2, v2⟩ := kv
    have hlt : lexLt k2 k = true := h (k2, v2) (List.mem_cons_self _ _)
    have hne : ¬k = k2 := lexLt_ne hlt
    unfold PromptLog.kvInsert
    rw [if_neg hne, if_pos hlt]

/-- Folding `PromptLog.write` over chronologically ordered writes (strictly
increasing keys in string order) leaves exactly the 20 newest entries,
newest first. -/
theorem promptLog_fold (writes : List (Nat × String))
    (h : List.Pairwise (fun a b => lexLt (Nat.repr a.1) (Nat.repr b.1) = true) writes) :
    writes.foldl (fun s w => PromptLog.write s w.1 w.2) [] =
      ((writes.map (fun w => (Nat.repr w.1, w.2))).reverse).take 20 := by
  induction writes using List.reverseRecOn with
  | nil => rfl
  | append_singleton ws w ih =>
    have hsplit := List.pairwise_append.mp h
    have hw : ∀ x ∈ ws, lexLt (Nat.repr x.1) (Nat.repr w.1) = true :=
      fun x hx => hsplit.2.2 x hx w (List.mem_singleton.mpr rfl)
    rw [List.foldl_append, List.foldl_cons, List.foldl_nil, ih hsplit.1]
    unfold PromptLog.write
    have hkeys : ∀ kv ∈ ((ws.map (fun w => (Nat.repr w.1, w.2))).reverse).take 20,
        lexLt kv.1 (Nat.repr w.1) = true := by
      intro kv hkv
      have h1 := List.mem_of_mem_take hkv
      have h2 := List.mem_reverse.mp h1
      obtain ⟨x, hx, rfl⟩ := List.mem_map.mp h2
      exact hw x hx
    rw [kvInsert_gt _ _ _ hkeys, List.map_append, List.reverse_append]
    simp only [List.map_cons, List.map_nil, List.reverse_cons, List.reverse_nil,
      List.nil_append, List.singleton_append]
    rw [show (20 : Nat) = 19 + 1 from rfl, List.take_succ_cons, List.take_succ_cons,
      List.take_take]
    norm_num

/-- C8 (history bound and order): in the in-memory variant, any sequence of
appends leaves exactly the distinct non-blank prompts in most-recent-first
order truncated to 50, so the list never exceeds 50 entries, and appending a
blank prompt is a no-op; in the durable-object variant, folding
chronologically ordered writes (strictly increasing stringified timestamps)
leaves exactly the 20 newest prompts newest-first, and the store-prompt
endpoint ignores blank prompts. -/
theorem history_bound_and_order (ps : List String) (hmem : List String) (p : String)
    (writes : List (Nat × String)) (env : Snap.Env) (st : Snap.St) :
    ps.foldl Worker.historyAdd [] = (dedupFront (filterOk ps).reverse).take 50 ∧
    (ps.foldl Worker.historyAdd []).length ≤ 50 ∧
    (jsTrim p = "" → Worker.historyAdd hmem p = hmem) ∧
    (List.Pairwise (fun a b => lexLt (Nat.repr a.1) (Nat.repr b.1) = true) writes →
      PromptLog.listVals (writes.foldl (fun s w => PromptLog.write s w.1 w.2) []) =
        ((writes.map Prod.snd).reverse).take 20) ∧
    (jsTrim p = "" → Snap.storePrompt env st (some p) = st) := by
  refine ⟨historyAdd_characterization ps, ?_, ?_, ?_, ?_⟩
  · rw [historyAdd_characterization ps]
    exact (List.length_take_le _ _)
  · intro hp
    unfold Worker.historyAdd
    rw [if_pos hp]
  · intro hord
    rw [promptLog_fold writes hord]
    unfold PromptLog.listVals
    rw [List.map_take, List.map_reverse, List.map_map, List.take_take]
    norm_num
    rfl
  · intro hp
    simp only [Snap.storePrompt]
    rw [if_pos hp]

theorem history_bound_and_order_witness :
    jsTrim " " = "" ∧
    List.Pairwise (fun (a b : Nat × String) => lexLt (Nat.repr a.1) (Nat.repr b.1) = true)
      [(1000000000000, "u"), (1000000000001, "v"), (1000000000002, "w")] ∧
    ["a", "b", " ", "a"].foldl Worker.historyAdd [] = ["a", "b"] ∧
    Worker.historyAdd ["x"] " " = ["x"] ∧
    PromptLog.listVals
      ([(1000000000000, "u"), (1000000000001, "v"), (1000000000002, "w")].foldl
        (fun s w => PromptLog.write s w.1 w.2) []) = ["w", "v", "u"] := by
  refine ⟨by decide, by decide, ?_, ?_, ?_⟩
  · rw [(history_bound_and_order ["a", "b", " ", "a"] ["x"] " "
      [(1000000000000, "u"), (1000000000001, "v"), (1000000000002, "w")]
      ⟨true, true, fun _ => .error "g", fun _ => .error "c", false, false,
        fun _ _ _ _ => .error "e", 0⟩ ⟨[], [], []⟩).1]
    decide
  · exact (history_bound_and_order ["a", "b", " ", "a"] ["x"] " "
      [(1000000000000, "u"), (1000000000001, "v"), (1000000000002, "w")]
      ⟨true, true, fun _ => .error "g", fun _ => .error "c", false, false,
        fun _ _ _ _ => .error "e", 0⟩ ⟨[], [], []⟩).2.2.1 (by decide)
  · rw [(history_bound_and_order ["a", "b", " ", "a"] ["x"] " "
      [(1000000000000, "u"), (1000000000001, "v"), (1000000000002, "w")]
      ⟨true, true, fun _ => .error "g", fun _ => .error "c", false, false,
        fun _ _ _ _ => .error "e", 0⟩ ⟨[], [], []⟩).2.2.2.1 (by decide)]
    decide
